import Mathlib

/-!
# Verification of the ethsignal negotiation layer

Shallow embedding of the `ethsignal` repository:

* `src/ethsignal/src/SignalServer.sol` — the on-chain relay contract
  (`sendSignal` / `SignalSent`).
* `src/client/sdk/SignalServerSDK.js` — the client SDK
  (`SignalServerSdk`, `RequestForHelp`, `DataStream`).
* `src/client/sdk_simulate.js` — the embedded SDK variant (constructor
  validation, `contract` setter) and the `addSendQueue` per-identity
  submission queue applied to every SDK instance in the simulations.

Machine integers are modelled as `Nat`; byte strings as `List Nat`;
fallible operations return `Except`/`Option`; the asynchronous parts
(the awaiting-reply phase of `requestHelp`, the persistent inbound
listener, the promise queue) are modelled as explicit state machines
over timelines of occurrences.
-/

namespace EthSignal

/-- A ledger account address, as in the Solidity contract. -/
abbrev Address := Nat

/-- `address(0)`, the null address. -/
def zeroAddress : Address := 0

/-- A byte string (`bytes` in Solidity, `Uint8Array`/`Buffer` in JS). -/
abbrev Bytes := List Nat

/-- The `SignalSent(address indexed sender, address indexed recipient,
bytes encryptedData)` event emitted by `SignalServer.sendSignal`. -/
structure SignalSentEvent where
  sender : Address
  recipient : Address
  encryptedData : Bytes
  deriving Repr, DecidableEq

/-- The two `require` failures of `SignalServer.sendSignal`. -/
inductive ContractError where
  /-- "SignalServer: Recipient cannot be zero address" -/
  | recipientZero : ContractError
  /-- "SignalServer: Encrypted data cannot be empty" -/
  | emptyData : ContractError
  deriving Repr, DecidableEq

/-- `SignalServer.sendSignal(_recipient, _encryptedData)` called with
`msg.sender = caller`.  The contract has no storage at all, so the whole
observable effect on success is the emitted `SignalSent` event; the
embedding therefore returns just that event.  Mirrors
`src/ethsignal/src/SignalServer.sol`:

```
require(_recipient != address(0), "SignalServer: Recipient cannot be zero address");
require(_encryptedData.length > 0, "SignalServer: Encrypted data cannot be empty");
emit SignalSent(msg.sender, _recipient, _encryptedData);
``` -/
def sendSignal (caller recipient : Address) (encryptedData : Bytes) :
    Except ContractError SignalSentEvent :=
  if recipient = zeroAddress then .error .recipientZero
  else if encryptedData.length = 0 then .error .emptyData
  else .ok ⟨caller, recipient, encryptedData⟩

/-! ## Envelopes and the symbolic crypto collaborator

`EthCrypto.encryptWithPublicKey(pk, json)` / `decryptWithPrivateKey`
are modelled symbolically: a ciphertext remembers the public key it was
encrypted for and the plaintext; decryption succeeds exactly when the
receiver's key matches.  `JSON.parse` failure is modelled by a
distinguished `malformed` plaintext. -/

/-- An encryption public key (identities are symbolic: the private key
equals the public key). -/
abbrev PubKey := Nat

/-- A connectivity candidate (`RTCIceCandidateInit`), opaque here. -/
abbrev Candidate := Nat

/-- The decrypted plaintext of a relay payload: either garbage that
`JSON.parse` rejects, or a signalling message `{ type, sdp, candidates }`
as produced by `_sendSignal`. -/
inductive Plain where
  /-- plaintext on which `JSON.parse` throws -/
  | malformed : Plain
  /-- `{ type, sdp, candidates }` -/
  | sigMsg (type : String) (sdp : String) (candidates : List Candidate) : Plain
  deriving Repr, DecidableEq

/-- A symbolic ciphertext: the key it was encrypted for plus the
plaintext it protects. -/
structure CipherText where
  forKey : PubKey
  plain : Plain
  deriving Repr, DecidableEq

/-- `EthCrypto.decryptWithPrivateKey(priv, ct)`: succeeds with the
plaintext iff the ciphertext was produced for this key, otherwise
throws (modelled as `none`). -/
def decryptWithPrivateKey (myKey : PubKey) (ct : CipherText) : Option Plain :=
  if ct.forKey = myKey then some ct.plain else none

/-! ## The peer-public-key directory (`peerPublicKeys`) -/

/-- The `peerPublicKeys` map of the SDK: address to encryption public
key, as an association list. -/
abbrev Directory := List (Address × PubKey)

/-- SDK-level errors surfaced to the application. -/
inductive SdkError where
  /-- `"SignalServerSdk: no public key for peer ..."` from `_getPeerPubKey` -/
  | unknownPeer (addr : Address) : SdkError
  /-- `"SignalServerSdk: peerPublicKeys map is required"` from the embedded constructor -/
  | peerKeysRequired : SdkError
  /-- `new Error("HelpResponseTimeout")` from the `requestHelp` timer -/
  | helpResponseTimeout : SdkError
  deriving Repr, DecidableEq

/-- `SignalServerSdk._getPeerPubKey(addr)`: returns the mapped key, or
throws the unknown-peer error when the directory has no entry. -/
def getPeerPubKey (dir : Directory) (addr : Address) : Except SdkError PubKey :=
  match dir.lookup addr with
  | none => .error (.unknownPeer addr)
  | some pk => .ok pk

/-! ## Outbound attempt: the relay-visible action trace of `requestHelp`

`requestHelp(toAddr)` performs local engine work (create data channel,
create offer, wait for ICE gathering to complete) and then calls
`_sendSignal(toAddr, {type, sdp, candidates})` exactly once.
`_sendSignal` looks up the peer key, encrypts, and submits one
`sendSignal` transaction.  The embedding records the ordered list of
actions the attempt performs, together with the `Except` outcome of the
synchronous part. -/

/-- An action performed by the outbound path of the SDK, in order. -/
inductive ReqAction where
  /-- `pc.createDataChannel("chat")` -/
  | createDataChannel : ReqAction
  /-- `pc.createOffer()` + `setLocalDescription` -/
  | createOffer : ReqAction
  /-- ICE gathering reached `"complete"` -/
  | gatherComplete : ReqAction
  /-- one `contractWithSigner.sendSignal(to, encrypted)` transaction -/
  | submit (toAddr : Address) (payload : CipherText) : ReqAction
  deriving Repr, DecidableEq

/-- Is this action a relay submission (a `sendSignal` transaction)? -/
def ReqAction.isSubmit : ReqAction → Bool
  | .submit _ _ => true
  | _ => false

/-- `SignalServerSdk._sendSignal(to, descObj)`: looks up the peer key
(`_getPeerPubKey`, which throws `unknownPeer` on a missing entry),
encrypts the JSON-serialized descriptor for that key, and issues one
`sendSignal` transaction.  Returns the submit actions performed and
the outcome: on an unknown peer the lookup throws before any
transaction, so no submit action occurs. -/
def sendSignalActions (dir : Directory) (toAddr : Address) (msg : Plain) :
    List ReqAction × Except SdkError Unit :=
  match getPeerPubKey dir toAddr with
  | .error e => ([], .error e)
  | .ok pk => ([.submit toAddr ⟨pk, msg⟩], .ok ())

/-- The synchronous part of `SignalServerSdk.requestHelp(toAddr)`
(everything up to and including the single `_sendSignal` call): local
engine preparation, ICE gathering to completion, then one relay
submission of the bundled `{type: "offer", sdp, candidates}` envelope.
`offerSdp` and `cands` are what the local engine produced. -/
def requestHelpActions (dir : Directory) (toAddr : Address)
    (offerSdp : String) (cands : List Candidate) :
    List ReqAction × Except SdkError Unit :=
  let pre : List ReqAction := [.createDataChannel, .createOffer, .gatherComplete]
  let sent := sendSignalActions dir toAddr (.sigMsg "offer" offerSdp cands)
  (pre ++ sent.1, sent.2)

/-! ## Outbound attempt: the awaiting-reply phase of `requestHelp`

After the single submission, `requestHelp` registers a *one-shot*
subscription (`this.contract.once(filter, onAnswer)`, filter =
`SignalSent(toAddr, this.wallet.address)`) and arms a timer:

```
setTimeout(() => {
  this.contract.off(filter, onAnswer);
  rejectStream(new Error("HelpResponseTimeout"));
}, this.timeoutMs);
```

The returned promise `p2pPromise` is resolved by `dc.onopen` (the data
channel opening) and rejected by the timer; a JS promise settles at
most once, so whichever of the two fires first wins.  The phase is
embedded as a state machine driven by a timeline of occurrences. -/

/-- One asynchronous occurrence during the awaiting-reply phase. -/
inductive Occ where
  /-- delivery of a `SignalSent` event (any sender/recipient pair; the
  `once` handler only sees those matching its filter) -/
  | relayEvent (sender recipient : Address) (enc : Option CipherText) : Occ
  /-- the `setTimeout` callback fires -/
  | timerFire : Occ
  /-- `dc.onopen` fires: the data channel became usable -/
  | channelOpen : Occ
  deriving Repr, DecidableEq

/-- Is this occurrence the delivery of a relay event? -/
def Occ.isRelay : Occ → Bool
  | .relayEvent _ _ _ => true
  | _ => false

/-- How the promise of `requestHelp` settled. -/
inductive SettleOutcome where
  /-- `resolveStream(stream)` from `dc.onopen` -/
  | opened : SettleOutcome
  /-- `rejectStream(new Error("HelpResponseTimeout"))` -/
  | timedOut : SettleOutcome
  deriving Repr, DecidableEq

/-- State of one outbound attempt during `AWAITING_REPLY`. -/
structure AwaitState where
  /-- the `once` handler is still installed on the contract -/
  subscribed : Bool
  /-- a valid `"answer"` envelope has been applied
  (`setRemoteDescription` + `addIceCandidate`s ran) -/
  answered : Bool
  /-- how `p2pPromise` settled, `none` while still pending -/
  settled : Option SettleOutcome
  deriving Repr, DecidableEq

/-- The state of an attempt right after its submission was accepted:
subscribed, no answer applied, promise pending. -/
def awaitInit : AwaitState := ⟨true, false, none⟩

/-- The body of the `onAnswer` handler, given the delivered
`encryptedData`: returns `true` iff a remote description was applied,
i.e. `encryptedData` was non-empty (`if (!enc) return`), decrypted with
our private key, parsed as JSON, and had `type === "answer"`.  Failed
decryption and failed parse throw inside the (async) handler, applying
nothing; a non-`"answer"` type is skipped by the `if`. -/
def answerApplies (myKey : PubKey) (enc : Option CipherText) : Bool :=
  match enc with
  | none => false
  | some ct =>
    match decryptWithPrivateKey myKey ct with
    | none => false
    | some .malformed => false
    | some (.sigMsg t _ _) => t = "answer"

/-- One step of the awaiting-reply phase, for an attempt towards
`peer` from local address `self` with decryption key `myKey`:

* a relay event matching the filter `SignalSent(peer, self)` is
  delivered to the `once` handler, which is thereby *removed*
  (EventEmitter `once` semantics — regardless of whether the handler's
  body applied anything); the handler applies the answer if valid;
* the timer removes the handler (`contract.off`) and rejects the
  promise (a no-op if it already settled);
* `dc.onopen` resolves the promise (a no-op if it already settled). -/
def awaitStep (peer self : Address) (myKey : PubKey)
    (s : AwaitState) : Occ → AwaitState
  | .relayEvent sender recipient enc =>
    if s.subscribed ∧ sender = peer ∧ recipient = self then
      { s with subscribed := false,
               answered := s.answered || answerApplies myKey enc }
    else s
  | .timerFire =>
    { s with subscribed := false,
             settled := match s.settled with
                        | none => some .timedOut
                        | some o => some o }
  | .channelOpen =>
    { s with settled := match s.settled with
                        | none => some .opened
                        | some o => some o }

/-- Run the awaiting-reply phase over a timeline of occurrences. -/
def awaitRun (peer self : Address) (myKey : PubKey)
    (s : AwaitState) (tl : List Occ) : AwaitState :=
  tl.foldl (awaitStep peer self myKey) s

/-- Is this occurrence a matching relay event carrying a valid
`"answer"` (the only kind of occurrence that can complete the
descriptor exchange)? -/
def validReply (peer self : Address) (myKey : PubKey) : Occ → Bool
  | .relayEvent sender recipient enc =>
    sender = peer ∧ recipient = self ∧ answerApplies myKey enc
  | _ => false

/-- A timeline is physically well-formed for an attempt when the data
channel can only open after a valid answer has been applied to the
local engine: every `channelOpen` occurrence happens in a state with
`answered = true`. -/
def wfTimeline (peer self : Address) (myKey : PubKey) :
    AwaitState → List Occ → Prop
  | _, [] => True
  | s, o :: rest =>
    (o = .channelOpen → s.answered = true) ∧
    wfTimeline peer self myKey (awaitStep peer self myKey s o) rest

/-! ## Facade construction

Two constructors exist in the repository.

* `SignalServerSdk` in `src/client/sdk/SignalServerSDK.js` defaults
  `peerPublicKeys = {}`, performs **no** validation of the map, stores
  it, and calls `this._startContractListeners()` at the end of the
  constructor.
* The embedded `SignalServerSdk` in `src/client/sdk_simulate.js`
  throws `"SignalServerSdk: peerPublicKeys map is required"` as its
  very first statement when the map is missing or empty; the
  persistent listener is attached later, by the `contract` setter
  (`set contract(c) { this._contract = c; this._startContractListeners(); }`)
  invoked from `this.contract = new ethers.Contract(...)`. -/

/-- An externally visible effect of running a constructor. -/
inductive CtorAction where
  /-- `_startContractListeners()` ran: the persistent
  `contract.on(SignalSent(null, self), ...)` subscription was attached -/
  | subscribe : CtorAction
  deriving Repr, DecidableEq

/-- The `SignalServerSdk` constructor of
`src/client/sdk/SignalServerSDK.js`: no check on `peerPublicKeys`
(which defaults to `{}`); it stores the directory and unconditionally
attaches the persistent listener.  Returns the effect trace and the
outcome. -/
def hubConstruct (dir : Directory) :
    List CtorAction × Except SdkError Directory :=
  ([.subscribe], .ok dir)

/-- The embedded `SignalServerSdk` constructor of
`src/client/sdk_simulate.js`: throws the directory-required error
before anything else when the map is empty; otherwise the `contract`
setter attaches the persistent listener.  Returns the effect trace
(empty when the throw happens first) and the outcome. -/
def embeddedConstruct (dir : Directory) :
    List CtorAction × Except SdkError Directory :=
  if dir.isEmpty then ([], .error .peerKeysRequired)
  else ([.subscribe], .ok dir)

/-! ## The persistent inbound listener (`_startContractListeners`)

The handler attached to `SignalSent(null, self)` decrypts each
delivered payload and, only `if (msg.type === "offer" && this._helpCb)`,
constructs a `RequestForHelp` and hands it to the registered callback.
There is no queue: an offer arriving while `this._helpCb === null` is
dropped on the floor and never replayed. -/

/-- An inbound help request surfaced to the application
(`RequestForHelp`): sender plus the decrypted offer. -/
structure HelpRequest where
  sender : Address
  offerSdp : String
  offerCandidates : List Candidate
  deriving Repr, DecidableEq

/-- State of the facade's persistent listener: whether a help callback
is registered (`_helpCb !== null`) and the requests delivered to the
application so far, in order. -/
structure ListenerState where
  helpCbSet : Bool
  delivered : List HelpRequest
  deriving Repr, DecidableEq

/-- Listener state right after construction: no callback, nothing
delivered. -/
def listenerInit : ListenerState := ⟨false, []⟩

/-- An operation affecting the persistent listener. -/
inductive FacadeOp where
  /-- the application calls `onHelpRequest(cb)` -/
  | registerHelpCb : FacadeOp
  /-- a `SignalSent(sender, self)` event is delivered with payload `enc` -/
  | inboundEvent (sender : Address) (enc : Option CipherText) : FacadeOp
  deriving Repr, DecidableEq

/-- Decode an inbound payload as the listener does: `if (!enc) return`,
decrypt (a throw applies nothing), `JSON.parse` (a throw applies
nothing), and only an envelope with `type === "offer"` yields a
request. -/
def decodeOffer (myKey : PubKey) (sender : Address)
    (enc : Option CipherText) : Option HelpRequest :=
  match enc with
  | none => none
  | some ct =>
    match decryptWithPrivateKey myKey ct with
    | none => none
    | some .malformed => none
    | some (.sigMsg t sdp cands) =>
      if t = "offer" then some ⟨sender, sdp, cands⟩ else none

/-- One step of the persistent listener.  An offer is delivered only
when a callback is registered at that moment; otherwise the event
leaves the state unchanged (no queueing).  Registering a callback
never replays past events. -/
def listenerStep (myKey : PubKey) (s : ListenerState) :
    FacadeOp → ListenerState
  | .registerHelpCb => { s with helpCbSet := true }
  | .inboundEvent sender enc =>
    match decodeOffer myKey sender enc with
    | none => s
    | some req =>
      if s.helpCbSet then { s with delivered := s.delivered ++ [req] }
      else s

/-- Run the persistent listener over a sequence of operations. -/
def listenerRun (myKey : PubKey) (s : ListenerState)
    (ops : List FacadeOp) : ListenerState :=
  ops.foldl (listenerStep myKey) s

/-! ## Inbound attempt: the action trace of `RequestForHelp.accept`

`accept()` (in `src/client/sdk/SignalServerSDK.js`, steps 3–6):
sets the remote offer description, adds each of the offer's
candidates, creates and sets the local answer, awaits
`iceGatheringState === "complete"`, and finally calls
`_sendSignal(sender, {type: answer.type, sdp, candidates})` once with
the *complete* bundle of locally gathered candidates. -/

/-- An action performed by `accept()`, in program order. -/
inductive AcceptAction where
  /-- `pc.setRemoteDescription({type, sdp})` with the offer -/
  | setRemoteDescription (type sdp : String) : AcceptAction
  /-- `pc.addIceCandidate(c)` for one offer candidate -/
  | addIceCandidate (c : Candidate) : AcceptAction
  /-- `pc.createAnswer()` -/
  | createAnswer : AcceptAction
  /-- `pc.setLocalDescription(answer)` -/
  | setLocalDescription : AcceptAction
  /-- ICE gathering reached `"complete"` (the awaited promise resolved) -/
  | gatherComplete : AcceptAction
  /-- one `_sendSignal(sender, ...)` relay submission -/
  | submit (toAddr : Address) (payload : CipherText) : AcceptAction
  deriving Repr, DecidableEq

/-- Is this accept-action a relay submission? -/
def AcceptAction.isSubmit : AcceptAction → Bool
  | .submit _ _ => true
  | _ => false

/-- The action trace of `RequestForHelp.accept()` for request `req`,
where the local engine produced answer SDP `answerSdp` and gathered
the candidates `localCands` (complete by the time the gathering
promise resolved).  The final `_sendSignal` looks up the sender's key
and submits the bundled `"answer"` envelope; an unknown sender throws
there, after the engine work but with no transaction. -/
def acceptActions (dir : Directory) (req : HelpRequest)
    (answerSdp : String) (localCands : List Candidate) :
    List AcceptAction × Except SdkError Unit :=
  let engine : List AcceptAction :=
    .setRemoteDescription "offer" req.offerSdp ::
      req.offerCandidates.map .addIceCandidate ++
      [.createAnswer, .setLocalDescription, .gatherComplete]
  match getPeerPubKey dir req.sender with
  | .error e => (engine, .error e)
  | .ok pk =>
    (engine ++ [.submit req.sender ⟨pk, .sigMsg "answer" answerSdp localCands⟩],
     .ok ())

/-! ## The per-identity send queue (`addSendQueue`)

`src/client/sdk_simulate.js` wraps `_sendSignal`/`_sendCandidate` of
each SDK instance:

```
let queue = Promise.resolve();
sdk._sendSignal = (to, desc) => {
  queue = queue.then(() => origSignal(to, desc));
  return queue;
};
```

so the whole original send — encryption, transaction submission, and
`tx.wait()` — of the `(k+1)`-th request only *starts* after the `k`-th
has fully completed.  The embedding assigns each queued send `k` a
duration `d k` (its preparation plus relay-acknowledgment latency,
arbitrary) and computes the (start, finish) interval of each send under
the chaining. -/

/-- The (start, finish) intervals of queued sends with durations `ds`,
starting at time `t`: each send starts when the previous one finished.
`finish` is the time the relay accepted the submission (`tx.wait()`
resolved). -/
def sendQueueRuns (t : Nat) : List Nat → List (Nat × Nat)
  | [] => []
  | d :: ds => (t, t + d) :: sendQueueRuns (t + d) ds

/-- The time at which the `k`-th queued send begins transmission. -/
def queueStart (t : Nat) (ds : List Nat) (k : Nat) : Nat :=
  ((sendQueueRuns t ds).getD k (0, 0)).1

/-- The time at which the `k`-th queued send is accepted by the relay
(its `tx.wait()` resolves). -/
def queueFinish (t : Nat) (ds : List Nat) (k : Nat) : Nat :=
  ((sendQueueRuns t ds).getD k (0, 0)).2

/-! ## Base64 (`Buffer.toString("base64")` / `Buffer.from(s, "base64")`)

`DataStream.respond` encodes an attached file with Node's standard
base64 (RFC 4648 alphabet, `=` padding); the receiving side decodes it
with `Buffer.from(file, "base64")`.  The codec is embedded over byte
lists (each byte `< 256`). -/

/-- The RFC 4648 base64 alphabet, as used by Node's `Buffer`. -/
def b64Alphabet : List Char :=
  [ 'A', 'B', 'C', 'D', 'E', 'F', 'G', 'H', 'I', 'J', 'K', 'L', 'M',
    'N', 'O', 'P', 'Q', 'R', 'S', 'T', 'U', 'V', 'W', 'X', 'Y', 'Z',
    'a', 'b', 'c', 'd', 'e', 'f', 'g', 'h', 'i', 'j', 'k', 'l', 'm',
    'n', 'o', 'p', 'q', 'r', 's', 't', 'u', 'v', 'w', 'x', 'y', 'z',
    '0', '1', '2', '3', '4', '5', '6', '7', '8', '9', '+', '/' ]

/-- The alphabet character of a 6-bit value. -/
def b64CharOf (n : Nat) : Char := b64Alphabet.getD n '='

/-- Index of a character in a list of characters, or `none`. -/
def charIdx : List Char → Nat → Char → Option Nat
  | [], _, _ => none
  | a :: as, i, c => if a = c then some i else charIdx as (i + 1) c

/-- The 6-bit value of an alphabet character (`none` for `=` and any
character outside the alphabet). -/
def b64DigitOf (c : Char) : Option Nat := charIdx b64Alphabet 0 c

/-- Base64-encode a byte list, processing 3-byte groups into 4
characters, with `=` padding for a 1- or 2-byte tail. -/
def b64encode : List Nat → List Char
  | [] => []
  | [b0] =>
    [ b64CharOf (b0 / 4), b64CharOf (b0 % 4 * 16), '=', '=' ]
  | [b0, b1] =>
    [ b64CharOf (b0 / 4), b64CharOf (b0 % 4 * 16 + b1 / 16),
      b64CharOf (b1 % 16 * 4), '=' ]
  | b0 :: b1 :: b2 :: rest =>
    b64CharOf (b0 / 4) :: b64CharOf (b0 % 4 * 16 + b1 / 16) ::
      b64CharOf (b1 % 16 * 4 + b2 / 64) :: b64CharOf (b2 % 64) ::
      b64encode rest

/-- Decode a base64 digit sequence (`none` marks `=` padding or a
non-alphabet character) back into bytes. -/
def b64decodeDigits : List (Option Nat) → List Nat
  | some d0 :: some d1 :: none :: none :: [] =>
    [ d0 * 4 + d1 / 16 ]
  | some d0 :: some d1 :: some d2 :: none :: [] =>
    [ d0 * 4 + d1 / 16, d1 % 16 * 16 + d2 / 4 ]
  | some d0 :: some d1 :: some d2 :: some d3 :: rest =>
    (d0 * 4 + d1 / 16) :: (d1 % 16 * 16 + d2 / 4) ::
      (d2 % 4 * 64 + d3) :: b64decodeDigits rest
  | _ => []

/-- Base64-decode a character list. -/
def b64decode (s : List Char) : List Nat :=
  b64decodeDigits (s.map b64DigitOf)

/-! ## `DataStream`

`respond(message, file)` builds `p = { message }`, and — `if (file)`,
true for any `Uint8Array` argument including an empty one, since any
object is truthy — sets `p.file = Buffer.from(file).toString("base64")`
(for an empty file this is the empty string), then sends
`JSON.stringify(p)`.

The receiving channel's `onmessage` parses the JSON and:
* `if (message != null)` invokes every registered message handler with
  the message;
* `if (file)` — **false for the empty string** — invokes every
  registered file handler with `Buffer.from(file, "base64")`.

JSON stringify/parse round-trips the structured payload, so the
embedding passes the parsed payload record directly. -/

/-- The parsed JSON payload `{ message, file? }` exchanged on the data
channel.  `file`, when present, is the base64 text (a character
list). -/
structure DSPayload where
  message : Option String
  file : Option (List Char)
  deriving Repr, DecidableEq

/-- `DataStream.respond(message, file)`: the payload it serializes and
sends.  `file = none` models calling `respond` without a file. -/
def respond (message : String) (file : Option (List Nat)) : DSPayload :=
  { message := some message, file := file.map b64encode }

/-- What the receiving `onmessage` handler delivers from a payload:
the message passed to every message handler (if any) and the decoded
file buffer passed to every file handler (if any).  The `if (file)`
truthiness test drops an empty base64 string. -/
def dsReceive (p : DSPayload) : Option String × Option (List Nat) :=
  (p.message,
   match p.file with
   | none => none
   | some s => if s = [] then none else some (b64decode s))

/-- Invocation of the registered handler lists on one delivered
payload: the results of calling every message handler and every file
handler, in registration order (`handlers.forEach(cb => cb(x))`). -/
def dsDeliver {α β : Type} (msgHandlers : List (String → α))
    (fileHandlers : List (List Nat → β)) (p : DSPayload) :
    List α × List β :=
  let r := dsReceive p
  ((match r.1 with
    | none => []
    | some m => msgHandlers.map fun cb => cb m),
   (match r.2 with
    | none => []
    | some f => fileHandlers.map fun cb => cb f))

/-! ## Theorems -/

/-- C8: The relay write operation (`sendSignal`) fails exactly when the
recipient is the null address or the payload bytes are empty; for every
other input it succeeds and emits the record consisting of the caller's
address as sender, the given recipient, and the given payload bytes.
The contract declares no storage, so the emitted event is its entire
observable effect. -/
theorem sendSignal_spec (caller recipient : Address) (data : Bytes) :
    (sendSignal caller recipient data = .ok ⟨caller, recipient, data⟩ ↔
      ¬(recipient = zeroAddress ∨ data = [])) ∧
    ((∃ e, sendSignal caller recipient data = .error e) ↔
      (recipient = zeroAddress ∨ data = [])) ∧
    (sendSignal caller recipient data = .error .recipientZero ↔
      recipient = zeroAddress) ∧
    (sendSignal caller recipient data = .error .emptyData ↔
      (recipient ≠ zeroAddress ∧ data = [])) := by
  unfold sendSignal
  rcases eq_or_ne recipient zeroAddress with h0 | h0 <;>
    rcases eq_or_ne data ([] : Bytes) with hd | hd <;>
      simp [h0, hd, List.length_eq_zero]

/-- C5 counterexample: the `SignalServerSdk` constructor of
`src/client/sdk/SignalServerSDK.js`, called with an empty
peer-public-key directory (its default), does **not** fail with a
directory-required error: it succeeds and attaches the persistent
relay subscription. -/
theorem hubConstruct_empty_subscribes :
    (hubConstruct []).2 = .ok [] ∧
    CtorAction.subscribe ∈ (hubConstruct []).1 := by
  constructor <;> simp [hubConstruct]

/-- C5 (amended): the embedded `SignalServerSdk` constructor of
`src/client/sdk_simulate.js`, with an empty peer-public-key directory,
fails with the directory-required error before any subscription is
established (the throw precedes the `contract` setter that attaches
the listener), while the `SignalServerSDK.js` constructor performs no
directory check and subscribes unconditionally. -/
theorem embeddedConstruct_empty_fails (dir : Directory)
    (h : dir = []) :
    embeddedConstruct dir = ([], .error .peerKeysRequired) ∧
    hubConstruct dir = ([.subscribe], .ok dir) := by
  subst h
  exact ⟨rfl, rfl⟩

/-- C5 witness: the amended theorem at the empty directory. -/
theorem embeddedConstruct_empty_fails_witness :
    embeddedConstruct [] = ([], .error .peerKeysRequired) ∧
    hubConstruct [] = ([.subscribe], .ok []) :=
  embeddedConstruct_empty_fails [] rfl

/-- C6: initiating an outbound attempt (`requestHelp`) towards an
address absent from the peer-public-key directory fails with the
unknown-peer error, and no relay submission (`sendSignal` transaction)
is ever attempted: `_getPeerPubKey` throws inside `_sendSignal` before
the transaction is issued. -/
theorem requestHelp_unknownPeer (dir : Directory) (toAddr : Address)
    (offerSdp : String) (cands : List Candidate)
    (h : dir.lookup toAddr = none) :
    (requestHelpActions dir toAddr offerSdp cands).2 =
      .error (.unknownPeer toAddr) ∧
    (requestHelpActions dir toAddr offerSdp cands).1.filter
      ReqAction.isSubmit = [] := by
  unfold requestHelpActions sendSignalActions getPeerPubKey
  rw [h]
  exact ⟨rfl, rfl⟩

/-- C6 witness: a directory knowing only address 5, asked to initiate
towards address 6. -/
theorem requestHelp_unknownPeer_witness :
    (requestHelpActions [(5, 77)] 6 "sdp" [1, 2]).2 =
      .error (.unknownPeer 6) ∧
    (requestHelpActions [(5, 77)] 6 "sdp" [1, 2]).1.filter
      ReqAction.isSubmit = [] :=
  requestHelp_unknownPeer [(5, 77)] 6 "sdp" [1, 2] rfl

/-- C9: a relay event addressed to self that decrypts to an
offer envelope while no help-request handler is registered is silently
discarded: the listener state is unchanged (no `RequestForHelp` is
created, nothing is queued), and prepending the event to any later
sequence of operations — including a later handler registration —
yields exactly the run without the event, so the request is never
delivered later. -/
theorem offer_dropped_without_handler (myKey : PubKey)
    (s : ListenerState) (sender : Address) (enc : Option CipherText)
    (req : HelpRequest) (ops : List FacadeOp)
    (hcb : s.helpCbSet = false)
    (hoffer : decodeOffer myKey sender enc = some req) :
    listenerStep myKey s (.inboundEvent sender enc) = s ∧
    listenerRun myKey s (.inboundEvent sender enc :: ops) =
      listenerRun myKey s ops := by
  have hstep : listenerStep myKey s (.inboundEvent sender enc) = s := by
    simp [listenerStep, hoffer, hcb]
  refine ⟨hstep, ?_⟩
  unfold listenerRun
  rw [List.foldl_cons, hstep]

/-- C9 witness: a fresh facade (no handler), an offer from address 3
encrypted to our key 9, followed by a later handler registration:
nothing is ever delivered. -/
theorem offer_dropped_without_handler_witness :
    listenerStep 9 listenerInit
      (.inboundEvent 3 (some ⟨9, .sigMsg "offer" "sdp" [4]⟩)) =
      listenerInit ∧
    listenerRun 9 listenerInit
      (.inboundEvent 3 (some ⟨9, .sigMsg "offer" "sdp" [4]⟩) ::
        [.registerHelpCb]) =
      listenerRun 9 listenerInit [.registerHelpCb] :=
  offer_dropped_without_handler 9 listenerInit 3
    (some ⟨9, .sigMsg "offer" "sdp" [4]⟩) ⟨3, "sdp", [4]⟩
    [.registerHelpCb] rfl (by decide)

/-- Unfolding `awaitStep` on a relay event. -/
theorem awaitStep_relay (peer self : Address) (myKey : PubKey)
    (s : AwaitState) (sender recipient : Address)
    (enc : Option CipherText) :
    awaitStep peer self myKey s (.relayEvent sender recipient enc) =
      if s.subscribed ∧ sender = peer ∧ recipient = self then
        { s with subscribed := false,
                 answered := s.answered || answerApplies myKey enc }
      else s := rfl

/-- Unfolding `awaitStep` on timer expiry. -/
theorem awaitStep_timer (peer self : Address) (myKey : PubKey)
    (s : AwaitState) :
    awaitStep peer self myKey s .timerFire =
      { s with subscribed := false,
               settled := match s.settled with
                          | none => some .timedOut
                          | some o => some o } := rfl

/-- Unfolding `awaitStep` on the data channel opening. -/
theorem awaitStep_channel (peer self : Address) (myKey : PubKey)
    (s : AwaitState) :
    awaitStep peer self myKey s .channelOpen =
      { s with settled := match s.settled with
                          | none => some .opened
                          | some o => some o } := rfl

/-- A settled promise stays settled with the same outcome under any
single occurrence: `resolveStream`/`rejectStream` on an
already-settled JS promise are no-ops. -/
theorem awaitStep_settled_some (peer self : Address) (myKey : PubKey)
    (s : AwaitState) (o : Occ) (out : SettleOutcome)
    (h : s.settled = some out) :
    (awaitStep peer self myKey s o).settled = some out := by
  cases o with
  | relayEvent sender recipient enc =>
    rw [awaitStep_relay]
    split_ifs <;> simp [h]
  | timerFire => rw [awaitStep_timer]; simp [h]
  | channelOpen => rw [awaitStep_channel]; simp [h]

/-- A settled promise stays settled with the same outcome over any
timeline: at most one resolution is ever delivered. -/
theorem awaitRun_settled_some (peer self : Address) (myKey : PubKey)
    (s : AwaitState) (tl : List Occ) (out : SettleOutcome)
    (h : s.settled = some out) :
    (awaitRun peer self myKey s tl).settled = some out := by
  induction tl generalizing s with
  | nil => exact h
  | cons o rest ih =>
    exact ih (awaitStep peer self myKey s o)
      (awaitStep_settled_some peer self myKey s o out h)

/-- Once the one-shot handler has been removed, relay events change
nothing at all: the attempt's state is frozen with respect to the
relay stream. -/
theorem awaitRun_unsubscribed_relay (peer self : Address)
    (myKey : PubKey) (s : AwaitState) (tl : List Occ)
    (hsub : s.subscribed = false)
    (hrel : ∀ o ∈ tl, o.isRelay = true) :
    awaitRun peer self myKey s tl = s := by
  induction tl with
  | nil => rfl
  | cons o rest ih =>
    have ho : o.isRelay = true := hrel o (List.mem_cons_self o rest)
    have hstep : awaitStep peer self myKey s o = s := by
      cases o with
      | relayEvent sender recipient enc =>
        rw [awaitStep_relay]
        simp [hsub]
      | timerFire => simp [Occ.isRelay] at ho
      | channelOpen => simp [Occ.isRelay] at ho
    have hrest := ih fun o hmem => hrel o (List.mem_cons_of_mem _ hmem)
    unfold awaitRun at hrest ⊢
    rw [List.foldl_cons, hstep]
    exact hrest

/-- While no valid correlated reply has been delivered, the attempt
stays pending: `answered` remains false and the promise remains
unsettled, provided the timeline is physically well-formed (the data
channel cannot open without an applied answer) and the timer has not
fired yet. -/
theorem awaitRun_pending_of_no_reply (peer self : Address)
    (myKey : PubKey) (s : AwaitState) (tl : List Occ)
    (hans : s.answered = false) (hset : s.settled = none)
    (hwf : wfTimeline peer self myKey s tl)
    (hnr : ∀ o ∈ tl, validReply peer self myKey o = false)
    (hnt : Occ.timerFire ∉ tl) :
    (awaitRun peer self myKey s tl).answered = false ∧
    (awaitRun peer self myKey s tl).settled = none := by
  induction tl generalizing s with
  | nil => exact ⟨hans, hset⟩
  | cons o rest ih =>
    obtain ⟨hwf1, hwf2⟩ := hwf
    have hnr1 : validReply peer self myKey o = false :=
      hnr o (List.mem_cons_self o rest)
    have hstep : (awaitStep peer self myKey s o).answered = false ∧
        (awaitStep peer self myKey s o).settled = none := by
      cases o with
      | relayEvent sender recipient enc =>
        rw [awaitStep_relay]
        split_ifs with hcond
        · have happ : answerApplies myKey enc = false := by
            simp only [validReply, decide_eq_false_iff_not] at hnr1
            cases h' : answerApplies myKey enc
            · rfl
            · exact absurd ⟨hcond.2.1, hcond.2.2, h'⟩ hnr1
          simp [hans, happ, hset]
        · exact ⟨hans, hset⟩
      | timerFire =>
        exact absurd (List.mem_cons_self _ rest) hnt
      | channelOpen =>
        exact absurd (hwf1 rfl) (by simp [hans])
    exact ih (awaitStep peer self myKey s o) hstep.1 hstep.2 hwf2
      (fun o hmem => hnr o (List.mem_cons_of_mem _ hmem))
      (fun hmem => hnt (List.mem_cons_of_mem _ hmem))

/-- C1: an outbound attempt towards a known peer issues exactly one
relay submission (`requestHelp` calls `_sendSignal` once, which issues
one `sendSignal` transaction), and when no valid correlated reply is
delivered before the timer fires, the attempt settles as the
`HelpResponseTimeout` rejection — and stays settled that way over the
arbitrary remainder `tl2` of the timeline, so exactly one resolution
is ever delivered to the caller. -/
theorem requestHelp_timeout_once (dir : Directory)
    (toAddr peerSelf : Address) (pk : PubKey)
    (offerSdp : String) (cands : List Candidate)
    (peer : Address) (myKey : PubKey) (tl1 tl2 : List Occ)
    (hpk : dir.lookup toAddr = some pk)
    (hwf : wfTimeline peer peerSelf myKey awaitInit tl1)
    (hnr : ∀ o ∈ tl1, validReply peer peerSelf myKey o = false)
    (hnt : Occ.timerFire ∉ tl1) :
    ((requestHelpActions dir toAddr offerSdp cands).1.filter
      ReqAction.isSubmit).length = 1 ∧
    (requestHelpActions dir toAddr offerSdp cands).2 = .ok () ∧
    (awaitRun peer peerSelf myKey awaitInit
      (tl1 ++ Occ.timerFire :: tl2)).settled =
      some .timedOut := by
  refine ⟨?_, ?_, ?_⟩
  · unfold requestHelpActions sendSignalActions getPeerPubKey
    rw [hpk]
    rfl
  · unfold requestHelpActions sendSignalActions getPeerPubKey
    rw [hpk]
  · have hpend := awaitRun_pending_of_no_reply peer peerSelf myKey
      awaitInit tl1 rfl rfl hwf hnr hnt
    unfold awaitRun
    rw [List.foldl_append, List.foldl_cons]
    have htimer : (awaitStep peer peerSelf myKey
        (awaitRun peer peerSelf myKey awaitInit tl1)
        Occ.timerFire).settled = some .timedOut := by
      simp [awaitStep, hpend.2]
    exact awaitRun_settled_some peer peerSelf myKey _ tl2 _ htimer

/-- C1 witness: directory `{6 ↦ 77}`, attempt towards 6, a timeline
whose only pre-timer occurrence is a matching relay event with an
empty payload (no valid reply), then the timer, then a late channel
occurrence. -/
theorem requestHelp_timeout_once_witness :
    ((requestHelpActions [(6, 77)] 6 "sdp" [1]).1.filter
      ReqAction.isSubmit).length = 1 ∧
    (requestHelpActions [(6, 77)] 6 "sdp" [1]).2 = .ok () ∧
    (awaitRun 6 2 9 awaitInit
      ([.relayEvent 6 2 none] ++ Occ.timerFire :: [.channelOpen])).settled =
      some .timedOut :=
  requestHelp_timeout_once [(6, 77)] 6 2 77 "sdp" [1] 6 9
    [.relayEvent 6 2 none] [.channelOpen] rfl
    (by constructor <;> simp [wfTimeline]) (by decide) (by decide)

/-- C2 counterexample: the reply subscription is registered with
`contract.once`, so the *first* matching relay event consumes it even
when its payload fails to parse.  Concretely (peer 1, self 2, key 9):
after a matching event whose payload decrypts but fails `JSON.parse`,
the subscription is gone, and a subsequent valid `"answer"` reply is
never processed — `answered` stays `false`, so the attempt cannot be
completed by the later valid reply, contrary to the claim. -/
theorem onceReply_consumed_counterexample :
    (awaitRun 1 2 9 awaitInit
      [.relayEvent 1 2 (some ⟨9, .malformed⟩)]).subscribed = false ∧
    (awaitRun 1 2 9 awaitInit
      [.relayEvent 1 2 (some ⟨9, .malformed⟩),
       .relayEvent 1 2 (some ⟨9, .sigMsg "answer" "sdp" [3]⟩)]).answered
      = false := by
  constructor <;> rfl

/-- C2 (amended): a delivered matching relay event whose payload fails
decryption, fails to parse, or is not an `"answer"` neither completes
nor fails the attempt (it stays pending, `answered` unchanged), but it
**does** consume the one-shot reply subscription: the handler is
removed, every later relay event (valid or not) leaves the attempt
unchanged, and the attempt can then only resolve through its timer or
channel events. -/
theorem invalid_reply_consumes_subscription (peer self : Address)
    (myKey : PubKey) (s : AwaitState) (enc : Option CipherText)
    (tlr : List Occ)
    (hsub : s.subscribed = true) (hset : s.settled = none)
    (happ : answerApplies myKey enc = false)
    (hrel : ∀ o ∈ tlr, o.isRelay = true) :
    (awaitStep peer self myKey s (.relayEvent peer self enc)).answered
      = s.answered ∧
    (awaitStep peer self myKey s (.relayEvent peer self enc)).settled
      = none ∧
    (awaitStep peer self myKey s (.relayEvent peer self enc)).subscribed
      = false ∧
    awaitRun peer self myKey
      (awaitStep peer self myKey s (.relayEvent peer self enc)) tlr =
      awaitStep peer self myKey s (.relayEvent peer self enc) := by
  have hstep : awaitStep peer self myKey s (.relayEvent peer self enc) =
      { s with subscribed := false,
               answered := s.answered || answerApplies myKey enc } := by
    rw [awaitStep_relay]
    simp [hsub]
  refine ⟨?_, ?_, ?_, ?_⟩
  · rw [hstep]; simp [happ]
  · rw [hstep]; exact hset
  · rw [hstep]
  · exact awaitRun_unsubscribed_relay peer self myKey _ tlr
      (by rw [hstep]) hrel

/-- C2 witness: the amended theorem at peer 1, self 2, key 9, a
payload that decrypts but fails to parse, followed by one later valid
reply event. -/
theorem invalid_reply_consumes_subscription_witness :
    (awaitStep 1 2 9 awaitInit
      (.relayEvent 1 2 (some ⟨9, .malformed⟩))).answered =
      awaitInit.answered ∧
    (awaitStep 1 2 9 awaitInit
      (.relayEvent 1 2 (some ⟨9, .malformed⟩))).settled = none ∧
    (awaitStep 1 2 9 awaitInit
      (.relayEvent 1 2 (some ⟨9, .malformed⟩))).subscribed = false ∧
    awaitRun 1 2 9
      (awaitStep 1 2 9 awaitInit (.relayEvent 1 2 (some ⟨9, .malformed⟩)))
      [.relayEvent 1 2 (some ⟨9, .sigMsg "answer" "sdp" [3]⟩)] =
      awaitStep 1 2 9 awaitInit (.relayEvent 1 2 (some ⟨9, .malformed⟩)) :=
  invalid_reply_consumes_subscription 1 2 9 awaitInit
    (some ⟨9, .malformed⟩)
    [.relayEvent 1 2 (some ⟨9, .sigMsg "answer" "sdp" [3]⟩)]
    rfl rfl (by decide) (by decide)

/-- C3: when the timer expires on a still-pending attempt, the expiry
removes the one-shot reply subscription (`contract.off`) and rejects
the attempt with the timeout; afterwards any delivered reply is
discarded — a suffix of relay events leaves the state exactly as the
timer left it — and no continuation whatsoever (`tl2` arbitrary,
channel openings included) can change the resolution away from the
timeout. -/
theorem timer_expiry_discards_late_replies (peer self : Address)
    (myKey : PubKey) (s : AwaitState) (tlr tl2 : List Occ)
    (hset : s.settled = none)
    (hrel : ∀ o ∈ tlr, o.isRelay = true) :
    (awaitStep peer self myKey s .timerFire).subscribed = false ∧
    (awaitStep peer self myKey s .timerFire).settled = some .timedOut ∧
    awaitRun peer self myKey (awaitStep peer self myKey s .timerFire)
      tlr = awaitStep peer self myKey s .timerFire ∧
    (awaitRun peer self myKey (awaitStep peer self myKey s .timerFire)
      tl2).settled = some .timedOut := by
  have h1 : (awaitStep peer self myKey s .timerFire).subscribed = false := by
    rw [awaitStep_timer]
  have h2 : (awaitStep peer self myKey s .timerFire).settled =
      some .timedOut := by
    rw [awaitStep_timer]
    simp [hset]
  exact ⟨h1, h2,
    awaitRun_unsubscribed_relay peer self myKey _ tlr h1 hrel,
    awaitRun_settled_some peer self myKey _ tl2 _ h2⟩

/-- C3 witness: a pending attempt whose timer fires, followed by a
late valid reply (discarded) and a late channel-open occurrence (does
not change the timeout resolution). -/
theorem timer_expiry_discards_late_replies_witness :
    (awaitStep 1 2 9 awaitInit .timerFire).subscribed = false ∧
    (awaitStep 1 2 9 awaitInit .timerFire).settled = some .timedOut ∧
    awaitRun 1 2 9 (awaitStep 1 2 9 awaitInit .timerFire)
      [.relayEvent 1 2 (some ⟨9, .sigMsg "answer" "sdp" []⟩)] =
      awaitStep 1 2 9 awaitInit .timerFire ∧
    (awaitRun 1 2 9 (awaitStep 1 2 9 awaitInit .timerFire)
      [.channelOpen]).settled = some .timedOut :=
  timer_expiry_discards_late_replies 1 2 9 awaitInit
    [.relayEvent 1 2 (some ⟨9, .sigMsg "answer" "sdp" []⟩)]
    [.channelOpen] rfl (by decide)

/-- `sendQueueRuns` schedules exactly one interval per queued send. -/
theorem sendQueueRuns_length (t : Nat) (ds : List Nat) :
    (sendQueueRuns t ds).length = ds.length := by
  induction ds generalizing t with
  | nil => rfl
  | cons d ds ih => simp [sendQueueRuns, ih]

/-- Closed form: the `k`-th queued send starts once the first `k`
durations have elapsed. -/
theorem queueStart_eq (t : Nat) (ds : List Nat) (k : Nat)
    (hk : k < ds.length) :
    queueStart t ds k = t + (ds.take k).sum := by
  induction ds generalizing t k with
  | nil => simp at hk
  | cons d ds ih =>
    cases k with
    | zero => simp [queueStart, sendQueueRuns]
    | succ k =>
      have hk' : k < ds.length := by simpa using hk
      have := ih (t + d) k hk'
      simp only [queueStart, sendQueueRuns, List.getD_cons_succ] at this ⊢
      rw [this, List.take_succ_cons, List.sum_cons]
      omega

/-- Closed form: the `k`-th queued send is accepted by the relay once
the first `k + 1` durations have elapsed. -/
theorem queueFinish_eq (t : Nat) (ds : List Nat) (k : Nat)
    (hk : k < ds.length) :
    queueFinish t ds k = t + (ds.take (k + 1)).sum := by
  induction ds generalizing t k with
  | nil => simp at hk
  | cons d ds ih =>
    cases k with
    | zero => simp [queueFinish, sendQueueRuns]
    | succ k =>
      have hk' : k < ds.length := by simpa using hk
      have := ih (t + d) k hk'
      simp only [queueFinish, sendQueueRuns, List.getD_cons_succ] at this ⊢
      rw [this, List.take_succ_cons, List.sum_cons]
      omega

/-- Sums of longer prefixes dominate sums of shorter ones. -/
theorem sum_take_mono (ds : List Nat) (m n : Nat) (h : m ≤ n) :
    (ds.take m).sum ≤ (ds.take n).sum := by
  induction ds generalizing m n with
  | nil => simp
  | cons d ds ih =>
    cases m with
    | zero => simp
    | succ m =>
      cases n with
      | zero => omega
      | succ n =>
        have := ih m n (by omega)
        simp only [List.take_succ_cons, List.sum_cons]
        omega

/-- C4: under the per-identity queue that `addSendQueue` installs
around `_sendSignal`/`_sendCandidate` (each wrapped send chains on the
previous send's completion, and the wrapped body contains the whole
preparation — encryption — and the transaction with its `tx.wait()`),
a later submission request never begins transmission before an earlier
one has been accepted by the relay, and the relay acceptance times
preserve the request order — for *every* assignment of durations to the
sends, i.e. regardless of how long any send's preparation takes. -/
theorem sendQueue_serializes (t : Nat) (ds : List Nat) (i j : Nat)
    (hij : i < j) (hj : j < ds.length) :
    queueFinish t ds i ≤ queueStart t ds j ∧
    queueFinish t ds i ≤ queueFinish t ds j := by
  have hi : i < ds.length := lt_trans hij hj
  rw [queueFinish_eq t ds i hi, queueStart_eq t ds j hj,
    queueFinish_eq t ds j hj]
  constructor
  · have := sum_take_mono ds (i + 1) j (by omega)
    omega
  · have := sum_take_mono ds (i + 1) (j + 1) (by omega)
    omega

/-- C4 witness: two queued sends where the second's own work (1 time
unit) is much shorter than the first's (5 units) — out-of-order
preparation completion is impossible: the second still starts only at
the first's acceptance. -/
theorem sendQueue_serializes_witness :
    queueFinish 0 [5, 1] 0 ≤ queueStart 0 [5, 1] 1 ∧
    queueFinish 0 [5, 1] 0 ≤ queueFinish 0 [5, 1] 1 :=
  sendQueue_serializes 0 [5, 1] 0 1 (by decide) (by decide)

/-- Candidate additions are not relay submissions. -/
theorem filter_isSubmit_map_addIce (l : List Candidate) :
    (l.map AcceptAction.addIceCandidate).filter AcceptAction.isSubmit
      = [] := by
  induction l with
  | nil => rfl
  | cons c l ih => simp [List.filter_cons, AcceptAction.isSubmit, ih]

/-- C7: accepting an inbound attempt for a known sender feeds the
local engine the remote descriptor and each of its candidates,
produces the local answer, and issues exactly one relay submission —
the last action of the trace, hence after ICE gathering completed —
whose envelope is the `"answer"` carrying the complete bundle of
locally gathered candidates (never an incremental stream). -/
theorem accept_single_bundled_submission (dir : Directory)
    (req : HelpRequest) (answerSdp : String)
    (localCands : List Candidate) (pk : PubKey)
    (h : dir.lookup req.sender = some pk) :
    (acceptActions dir req answerSdp localCands).2 = .ok () ∧
    (acceptActions dir req answerSdp localCands).1.filter
      AcceptAction.isSubmit =
      [.submit req.sender ⟨pk, .sigMsg "answer" answerSdp localCands⟩] ∧
    (acceptActions dir req answerSdp localCands).1.getLast? =
      some (.submit req.sender
        ⟨pk, .sigMsg "answer" answerSdp localCands⟩) ∧
    AcceptAction.setRemoteDescription "offer" req.offerSdp ∈
      (acceptActions dir req answerSdp localCands).1 ∧
    (∀ c ∈ req.offerCandidates, AcceptAction.addIceCandidate c ∈
      (acceptActions dir req answerSdp localCands).1) ∧
    AcceptAction.createAnswer ∈
      (acceptActions dir req answerSdp localCands).1 ∧
    AcceptAction.gatherComplete ∈
      (acceptActions dir req answerSdp localCands).1 := by
  have htr : acceptActions dir req answerSdp localCands =
      ((AcceptAction.setRemoteDescription "offer" req.offerSdp ::
        (req.offerCandidates.map AcceptAction.addIceCandidate ++
          [AcceptAction.createAnswer, AcceptAction.setLocalDescription,
           AcceptAction.gatherComplete])) ++
        [AcceptAction.submit req.sender
          ⟨pk, .sigMsg "answer" answerSdp localCands⟩], .ok ()) := by
    unfold acceptActions getPeerPubKey
    rw [h]
    rfl
  rw [htr]
  refine ⟨rfl, ?_, ?_, ?_, ?_, ?_, ?_⟩
  · simp [List.filter_append, List.filter_cons, AcceptAction.isSubmit,
      filter_isSubmit_map_addIce]
  · rw [List.getLast?_append_cons]
    rfl
  · simp
  · intro c hc
    exact List.mem_append_left _ (List.mem_cons_of_mem _
      (List.mem_append_left _ (List.mem_map_of_mem _ hc)))
  · simp
  · simp

/-- C7 witness: directory `{3 ↦ 42}`, an offer from 3 with two remote
candidates, two locally gathered candidates. -/
theorem accept_single_bundled_submission_witness :
    (acceptActions [(3, 42)] (HelpRequest.mk 3 "osdp" [7, 8]) "asdp" [1, 2]).2 =
      .ok () ∧
    (acceptActions [(3, 42)] (HelpRequest.mk 3 "osdp" [7, 8]) "asdp" [1, 2]).1.filter
      AcceptAction.isSubmit =
      [.submit 3 ⟨42, .sigMsg "answer" "asdp" [1, 2]⟩] ∧
    (acceptActions [(3, 42)] (HelpRequest.mk 3 "osdp" [7, 8]) "asdp" [1, 2]).1.getLast?
      = some (.submit 3 ⟨42, .sigMsg "answer" "asdp" [1, 2]⟩) ∧
    AcceptAction.setRemoteDescription "offer" "osdp" ∈
      (acceptActions [(3, 42)] (HelpRequest.mk 3 "osdp" [7, 8]) "asdp" [1, 2]).1 ∧
    (∀ c ∈ [7, 8], AcceptAction.addIceCandidate c ∈
      (acceptActions [(3, 42)] (HelpRequest.mk 3 "osdp" [7, 8]) "asdp" [1, 2]).1) ∧
    AcceptAction.createAnswer ∈
      (acceptActions [(3, 42)] (HelpRequest.mk 3 "osdp" [7, 8]) "asdp" [1, 2]).1 ∧
    AcceptAction.gatherComplete ∈
      (acceptActions [(3, 42)] (HelpRequest.mk 3 "osdp" [7, 8]) "asdp" [1, 2]).1 :=
  accept_single_bundled_submission [(3, 42)] (HelpRequest.mk 3 "osdp" [7, 8])
    "asdp" [1, 2] 42 rfl

/-- The padding character is not a base64 digit. -/
theorem b64DigitOf_pad : b64DigitOf '=' = none := by decide

/-- Decoding inverts the alphabet on 6-bit values. -/
theorem b64DigitOf_b64CharOf :
    ∀ n : Nat, n < 64 → b64DigitOf (b64CharOf n) = some n := by decide

/-- Base64 decode inverts encode on byte lists. -/
theorem b64decode_b64encode (bs : List Nat) (h : ∀ b ∈ bs, b < 256) :
    b64decode (b64encode bs) = bs := by
  induction bs using b64encode.induct with
  | case1 => rfl
  | case2 b0 =>
    have hb0 : b0 < 256 := h b0 (by simp)
    unfold b64decode b64encode
    rw [List.map_cons, List.map_cons, List.map_cons, List.map_cons,
      b64DigitOf_b64CharOf _ (by omega), b64DigitOf_b64CharOf _ (by omega),
      b64DigitOf_pad]
    simp only [b64decodeDigits, List.cons.injEq, and_true]
    omega
  | case3 b0 b1 =>
    have hb0 : b0 < 256 := h b0 (by simp)
    have hb1 : b1 < 256 := h b1 (by simp)
    unfold b64decode b64encode
    rw [List.map_cons, List.map_cons, List.map_cons, List.map_cons,
      b64DigitOf_b64CharOf _ (by omega), b64DigitOf_b64CharOf _ (by omega),
      b64DigitOf_b64CharOf _ (by omega), b64DigitOf_pad]
    simp only [b64decodeDigits, List.cons.injEq, and_true]
    constructor <;> omega
  | case4 b0 b1 b2 rest ih =>
    have hb0 : b0 < 256 := h b0 (by simp)
    have hb1 : b1 < 256 := h b1 (by simp)
    have hb2 : b2 < 256 := h b2 (by simp)
    have hrest : ∀ b ∈ rest, b < 256 := fun b hb => h b (by simp [hb])
    have ihr := ih hrest
    unfold b64decode at ihr ⊢
    unfold b64encode
    rw [List.map_cons, List.map_cons, List.map_cons, List.map_cons,
      b64DigitOf_b64CharOf _ (by omega), b64DigitOf_b64CharOf _ (by omega),
      b64DigitOf_b64CharOf _ (by omega), b64DigitOf_b64CharOf _ (by omega)]
    simp only [b64decodeDigits]
    rw [ihr]
    simp only [List.cons.injEq, and_true]
    refine ⟨by omega, by omega, by omega⟩

/-- A non-empty file has a non-empty base64 encoding. -/
theorem b64encode_ne_nil (bs : List Nat) (h : bs ≠ []) :
    b64encode bs ≠ [] := by
  match bs with
  | [] => exact absurd rfl h
  | [b0] => simp [b64encode]
  | [b0, b1] => simp [b64encode]
  | b0 :: b1 :: b2 :: rest => simp [b64encode]

/-- C10 counterexample: `respond("hi", emptyFile)` *does* attach a file
field (an empty `Uint8Array` is truthy, base64-encoding to `""`), but
the receiving handler's `if (file)` is false on the empty string, so a
registered file handler is invoked **zero** times — not once with an
empty buffer as the claim requires.  Message handlers still fire. -/
theorem emptyFile_dropped_counterexample :
    (respond "hi" (some [])).file = some [] ∧
    (dsDeliver [fun (s : String) => s] [fun (b : List Nat) => b]
      (respond "hi" (some []))).2 = [] ∧
    (dsDeliver [fun (s : String) => s] [fun (b : List Nat) => b]
      (respond "hi" (some []))).1 = ["hi"] :=
  ⟨rfl, rfl, rfl⟩

/-- C10 (amended): for every message and every *non-empty* file of
bytes, delivering `respond(message, file)` invokes every registered
message handler with the identical message and every registered file
handler with a buffer whose bytes equal the original file (the base64
encode/decode round-trip); with no file attached, only the message
handlers fire.  An empty file is silently dropped on the receiving
side (see the counterexample). -/
theorem dataStream_delivery_roundtrip {α β : Type} (m : String)
    (f : List Nat) (msgHandlers : List (String → α))
    (fileHandlers : List (List Nat → β))
    (hne : f ≠ []) (hbytes : ∀ b ∈ f, b < 256) :
    dsDeliver msgHandlers fileHandlers (respond m (some f)) =
      (msgHandlers.map fun cb => cb m,
       fileHandlers.map fun cb => cb f) ∧
    dsDeliver msgHandlers fileHandlers (respond m none) =
      (msgHandlers.map fun cb => cb m, []) := by
  constructor
  · simp [dsDeliver, dsReceive, respond, b64encode_ne_nil f hne,
      b64decode_b64encode f hbytes]
  · simp [dsDeliver, dsReceive, respond]

/-- C10 witness: message `"ok"`, file `[0, 255, 7]`, one message
handler and one file handler. -/
theorem dataStream_delivery_roundtrip_witness :
    dsDeliver [fun (s : String) => s] [fun (b : List Nat) => b]
      (respond "ok" (some [0, 255, 7])) =
      ([fun (s : String) => s].map fun cb => cb "ok",
       [fun (b : List Nat) => b].map fun cb => cb [0, 255, 7]) ∧
    dsDeliver [fun (s : String) => s] [fun (b : List Nat) => b]
      (respond "ok" none) =
      ([fun (s : String) => s].map fun cb => cb "ok", []) :=
  dataStream_delivery_roundtrip "ok" [0, 255, 7]
    [fun (s : String) => s] [fun (b : List Nat) => b]
    (by decide) (by decide)

end EthSignal
